import Mathlib

/-!
Verification of the `gibushim-excel-to-db` pipeline
(`src/excel_to_db_code`): a shallow embedding in Lean 4 of the
row-splitting, half-validation, reference-resolution, duplicate-detection
and insert-execution logic, followed by theorems settling the frozen
claims about the natural-language specification.

Cell values are modelled by an explicit `Value` type (Python's
`None`/`str`/`int`/`float`); float cells are modelled exactly as
rationals, which is faithful for every operation the code performs on
them (`isinstance` checks, `float.is_integer`, truncating `int()`
conversion).  Mutation of the raw half dictionary is modelled by
explicit state passing: `validate_half` returns the final state of the
mapping alongside its result.
-/

set_option autoImplicit false

namespace GibushimExcel

/-- A loosely-typed spreadsheet cell value as the Python code sees it:
`None`, a string, an int, or a float (modelled exactly as a rational). -/
inductive Value where
  | none
  | str (s : String)
  | int (n : Int)
  | float (q : Rat)
deriving DecidableEq, Repr

/-- Python `int(f)` on a float: truncation toward zero.  For a rational
`q` in lowest terms this is t-division of numerator by denominator. -/
def pyTrunc (q : Rat) : Int :=
  q.num.tdiv (q.den : Int)

/-- Python `str.strip()`: remove leading and trailing whitespace.
(Defined structurally over the character list so that it evaluates
inside the kernel.) -/
def pyStrip (s : String) : String :=
  String.mk
    ((((s.toList.dropWhile Char.isWhitespace).reverse.dropWhile
        Char.isWhitespace).reverse))

/-- Digits-only parse of a nonempty list of characters, as the core of
Python `int(str)`.  (Python's grouping underscores are not modelled;
no input in this development uses them.) -/
def digitsToNat? (l : List Char) : Option Nat :=
  if l = [] then Option.none
  else if l.all Char.isDigit then
    some (l.foldl (fun acc c => acc * 10 + (c.toNat - 48)) 0)
  else Option.none

/-- Python `int(s)` for a string: strip surrounding whitespace, allow an
optional sign, then require decimal digits only; anything else raises
`ValueError`, modelled as `Option.none`.  In particular `"10.0"` and
`"10.5"` fail. -/
def pyParseInt (s : String) : Option Int :=
  match (pyStrip s).toList with
  | [] => Option.none
  | c :: rest =>
    if c = '-' then (digitsToNat? rest).map (fun n => -(n : Int))
    else if c = '+' then (digitsToNat? rest).map (fun n => (n : Int))
    else (digitsToNat? (c :: rest)).map (fun n => (n : Int))

/-- Python `int(v)` over the cell-value domain, with exceptions
(`TypeError` / `ValueError`) modelled as `Option.none`.  Note a float is
truncated toward zero whether or not it is integral: this is exactly
what `validators.py` executes, since both branches of its
`isinstance(v, float) and v.is_integer()` conditional run `int(v)`. -/
def pythonInt (v : Value) : Option Int :=
  match v with
  | .int n => some n
  | .float q => some (pyTrunc q)
  | .str s => pyParseInt s
  | .none => Option.none

/-- Python `str(v)` as far as this pipeline observes it. -/
def pyStr (v : Value) : String :=
  match v with
  | .none => "None"
  | .str s => s
  | .int n => toString n
  | .float q => toString q

/-- Embedding of `validators.is_empty_value`: `None`, or a string that is entirely
whitespace. -/
def is_empty_value (v : Value) : Bool :=
  match v with
  | .none => true
  | .str s => pyStrip s = ""
  | _ => false

/-- The six field names of a raw half dictionary, as produced by
`excel_reader._slice_to_half`. -/
inductive FieldName where
  | group_id
  | chest_number
  | candidate_name
  | assessor_name
  | grade
  | comment
deriving DecidableEq, Repr

/-- The source-level string for each field name (used in error records). -/
def FieldName.key : FieldName → String
  | .group_id => "group_id"
  | .chest_number => "chest_number"
  | .candidate_name => "candidate_name"
  | .assessor_name => "assessor_name"
  | .grade => "grade"
  | .comment => "comment"

/-- A raw half: the fixed six-key dictionary built by the Row Splitter. -/
structure RawHalf where
  group_id : Value
  chest_number : Value
  candidate_name : Value
  assessor_name : Value
  grade : Value
  comment : Value
deriving DecidableEq, Repr

def RawHalf.get (r : RawHalf) : FieldName → Value
  | .group_id => r.group_id
  | .chest_number => r.chest_number
  | .candidate_name => r.candidate_name
  | .assessor_name => r.assessor_name
  | .grade => r.grade
  | .comment => r.comment

def RawHalf.set (r : RawHalf) (f : FieldName) (v : Value) : RawHalf :=
  match f with
  | .group_id => { r with group_id := v }
  | .chest_number => { r with chest_number := v }
  | .candidate_name => { r with candidate_name := v }
  | .assessor_name => { r with assessor_name := v }
  | .grade => { r with grade := v }
  | .comment => { r with comment := v }

/-- Embedding of `validators.is_half_empty`: all six fields empty. -/
def is_half_empty (r : RawHalf) : Bool :=
  is_empty_value r.group_id && is_empty_value r.chest_number &&
  is_empty_value r.candidate_name && is_empty_value r.assessor_name &&
  is_empty_value r.grade && is_empty_value r.comment

/-- Embedding of `models.excel_validation_error.ExcelValidationError`. -/
structure ExcelValidationError where
  row_number : Int
  half : Int
  field : String
  message : String
deriving DecidableEq, Repr

/-- Embedding of `models.half.HalfInput` (the pydantic model): numeric fields are
integers, names optional strings, comment a string (never null). -/
structure HalfInput where
  group_id : Int
  chest_number : Int
  candidate_name : Option String
  assessor_name : Option String
  grade : Int
  comment : String
deriving DecidableEq, Repr

/-- The required-field list of `validators.validate_half`. -/
def required_fields : List FieldName :=
  [.group_id, .chest_number, .grade, .comment]

/-- The integer-typed field list of `validators.validate_half`. -/
def int_fields : List FieldName :=
  [.group_id, .chest_number, .grade]

/-- The required-field pass of `validate_half`: one
"missing required field" error per empty required field, in order. -/
def requiredErrors (raw : RawHalf) (row_number half : Int) :
    List ExcelValidationError :=
  required_fields.foldl
    (fun es f =>
      if is_empty_value (raw.get f) then
        es ++ [⟨row_number, half, f.key, "missing required field"⟩]
      else es)
    []

/-- One iteration of the integer-coercion loop of `validate_half`: a
non-empty value is passed to Python `int()`; on success the coerced
integer is written back into the mapping, on failure a
"must be an integer" error is appended. -/
def coerceStep (row_number half : Int)
    (st : RawHalf × List ExcelValidationError) (f : FieldName) :
    RawHalf × List ExcelValidationError :=
  let v := st.1.get f
  if is_empty_value v then st
  else
    match pythonInt v with
    | some n => (st.1.set f (Value.int n), st.2)
    | Option.none =>
        (st.1, st.2 ++ [⟨row_number, half, f.key, "must be an integer"⟩])

/-- The integer-coercion pass of `validate_half` over the three numeric
fields, threading the mutated mapping and the error list. -/
def coercePass (raw : RawHalf) (row_number half : Int)
    (errs : List ExcelValidationError) :
    RawHalf × List ExcelValidationError :=
  int_fields.foldl (coerceStep row_number half) (raw, errs)

def optStr (v : Value) : Option String :=
  match v with
  | .none => Option.none
  | v => some (pyStr v)

/-- Construction of the pydantic `HalfInput` from the (coerced) raw
mapping.  The `comment` pre-validator maps `None` to the empty string
and anything else through `str`.  The numeric fields are already
`Value.int` on every path on which this is invoked. -/
def mkHalfInput (raw : RawHalf) : Option HalfInput :=
  match raw.group_id, raw.chest_number, raw.grade with
  | .int g, .int c, .int gr =>
      some
        { group_id := g
          chest_number := c
          candidate_name := optStr raw.candidate_name
          assessor_name := optStr raw.assessor_name
          grade := gr
          comment :=
            match raw.comment with
            | .none => ""
            | v => pyStr v }
  | _, _, _ => Option.none

/-- Embedding of `validators.validate_half`.  The third component is the final state
of the caller's raw mapping (the Python function mutates it in place).
If any error was collected, no model is built; otherwise the pydantic
construction runs, with a residual failure reported under the
`__model__` sentinel field. -/
def validate_half (raw : RawHalf) (row_number half : Int) :
    Option HalfInput × List ExcelValidationError × RawHalf :=
  let errs1 := requiredErrors raw row_number half
  let st := coercePass raw row_number half errs1
  if st.2 = [] then
    match mkHalfInput st.1 with
    | some m => (some m, [], st.1)
    | Option.none =>
        (Option.none, [⟨row_number, half, "__model__", "model construction failed"⟩], st.1)
  else (Option.none, st.2, st.1)

example :
    (validate_half
      ⟨.float 10, .int 1, .none, .none, .int 5, .str "ok"⟩ 2 1).1 =
    some ⟨10, 1, Option.none, Option.none, 5, "ok"⟩ := by decide

example :
    (validate_half
      ⟨.str "10.0", .int 1, .none, .none, .int 5, .str "ok"⟩ 2 1).2.1 =
    [⟨2, 1, "group_id", "must be an integer"⟩] := by decide

/-- The float 10.5 as an exact rational (scientific-notation literals
for `Rat` do not evaluate inside the kernel, so the reduced fraction is
given directly). -/
def ratTenPointFive : Rat := Rat.mk' 21 2 (by decide) (by decide)

example :
    (validate_half
      ⟨.float ratTenPointFive, .int 1, .none, .none, .int 5, .str "ok"⟩ 2 1).1 =
    some ⟨10, 1, Option.none, Option.none, 5, "ok"⟩ := by decide

example :
    (validate_half
      ⟨.none, .int 1, .none, .none, .none, .str "ok"⟩ 2 1).2.1 =
    [⟨2, 1, "group_id", "missing required field"⟩,
     ⟨2, 1, "grade", "missing required field"⟩] := by decide

/-! ## Row Splitter (`excel_reader.py`) -/

/-- Embedding of `excel_reader._slice_to_half`: map the first six positions of a cell
list onto the six-key schema, padding missing positions with null. -/
def _slice_to_half (values : List Value) : RawHalf :=
  { group_id := values.getD 0 .none
    chest_number := values.getD 1 .none
    candidate_name := values.getD 2 .none
    assessor_name := values.getD 3 .none
    grade := values.getD 4 .none
    comment := values.getD 5 .none }

/-- Embedding of `excel_reader._row_to_halves`: columns 0..5 feed half 1 and columns
`half2_offset..half2_offset+5` feed half 2 — but each slice is taken
only when the row is long enough for the whole slice; otherwise the
entire half is replaced by six nulls. -/
def _row_to_halves (row_values : List Value) (half2_offset : Nat) :
    RawHalf × RawHalf :=
  let a_f :=
    if 6 ≤ row_values.length then row_values.take 6
    else List.replicate 6 Value.none
  let endPos := half2_offset + 6
  let second :=
    if endPos ≤ row_values.length then (row_values.drop half2_offset).take 6
    else List.replicate 6 Value.none
  (_slice_to_half a_f, _slice_to_half second)

/-! ## Insert candidates and duplicate records (`models/`) -/

/-- Embedding of `models.evaluation_insert.EvaluationInsert` (the twelve-field
dataclass imported by `main.py` and `validators.py`): the six audit
fields of the source half plus the resolved identifiers. -/
structure EvaluationInsert where
  row_number : Int
  half_index : Int
  group_id : Int
  chest_number : Int
  candidate_name : Option String
  assessor_name : Option String
  grade : Int
  comment : String
  stage : Int
  assessor_id : Int
  myun_id : Int
  soldier_id : Int
deriving DecidableEq, Repr

/-- Embedding of `models.duplication_validation.DuplicationValidation`.  (The Python
dataclass compares only the key triple; Lean's derived equality is full
structural equality, which is finer and is used only to evaluate
concrete instances.) -/
structure DuplicationValidation where
  stage : Int
  soldier_id : Int
  assessor_id : Int
  group_id : Option Int
  chest_number : Option Int
  candidate_name : Option String
  assessor_name : Option String
  grade : Option Int
  comment : Option String
  row_number : Option Int
  half_index : Option Int
deriving DecidableEq, Repr

/-- The natural key (stage, assessor_id, soldier_id). -/
abbrev NatKey := Int × Int × Int

def evKey (ev : EvaluationInsert) : NatKey :=
  (ev.stage, ev.assessor_id, ev.soldier_id)

def dvKey (d : DuplicationValidation) : NatKey :=
  (d.stage, d.assessor_id, d.soldier_id)

/-- Embedding of `validators._insert_keys`: project an insert candidate to a
`DuplicationValidation` carrying the full audit context. -/
def _insert_keys (ev : EvaluationInsert) : DuplicationValidation :=
  { stage := ev.stage
    soldier_id := ev.soldier_id
    assessor_id := ev.assessor_id
    group_id := some ev.group_id
    chest_number := some ev.chest_number
    candidate_name := ev.candidate_name
    assessor_name := ev.assessor_name
    grade := some ev.grade
    comment := some ev.comment
    row_number := some ev.row_number
    half_index := some ev.half_index }

/-! ## Duplicate Detector Phase 1 (`validators.find_duplicate_keys_in_excel`)

Python dictionaries preserve insertion order, so `seen` and
`duplicates_map` are modelled as association lists to which new keys are
appended at the end; lookup returns the first matching entry. -/

/-- First-match lookup in an insertion-ordered association list. -/
def assocFind? {α : Type} : List (NatKey × α) → NatKey → Option α
  | [], _ => Option.none
  | (k₀, v) :: rest, k => if k₀ = k then some v else assocFind? rest k

/-- Embedding of `duplicates_map.setdefault(key, [seen[key]]).append(current)`:
if the key is present, append `current` to its list; otherwise append a
new entry `[first, current]` at the end. -/
def dmapAdd (dmap : List (NatKey × List DuplicationValidation))
    (k : NatKey) (first current : DuplicationValidation) :
    List (NatKey × List DuplicationValidation) :=
  match dmap with
  | [] => [(k, [first, current])]
  | (k₀, l) :: rest =>
    if k₀ = k then (k₀, l ++ [current]) :: rest
    else (k₀, l) :: dmapAdd rest k first current

/-- The loop state of `find_duplicate_keys_in_excel`. -/
structure DupState where
  seen : List (NatKey × DuplicationValidation)
  dmap : List (NatKey × List DuplicationValidation)

/-- One iteration of the loop of `find_duplicate_keys_in_excel`. -/
def dupStep (st : DupState) (ev : EvaluationInsert) : DupState :=
  let key := evKey ev
  let current := _insert_keys ev
  match assocFind? st.seen key with
  | some firstDup => ⟨st.seen, dmapAdd st.dmap key firstDup current⟩
  | Option.none => ⟨st.seen ++ [(key, current)], st.dmap⟩

/-- Embedding of `validators.find_duplicate_keys_in_excel`: flag, for every natural
key occurring more than once, all of its occurrences (the remembered
first one and each later one), grouped by key. -/
def find_duplicate_keys_in_excel (inserts : List EvaluationInsert) :
    List DuplicationValidation :=
  ((inserts.foldl dupStep ⟨[], []⟩).dmap.map Prod.snd).flatten

/-! ## The relational store (`db.py`)

`db.py` only wraps SQL text; the tables it queries live outside the
repository.  The store is modelled relationally: participants,
assessor-in-group rows and already-persisted evaluations. -/

/-- Role of an assessor in a group (`DB.AssessorRole`): half 1 maps to
the group-commander role, half 2 to the group-responsible role. -/
inductive AssessorRole where
  | group_commander
  | group_responsible
deriving DecidableEq, Repr

/-- A row of `api_participant`. -/
structure Participant where
  id : Int
  chest_number : Int
deriving DecidableEq, Repr

/-- A row of `api_assessoringroup`. -/
structure AssessorInGroup where
  group_id : Int
  stage : Int
  role : AssessorRole
  myun_id : Int
  assessor_id : Int
deriving DecidableEq, Repr

/-- A row of `api_assessorevaluation` as inserted by the executor. -/
structure EvalRow where
  grade : Int
  comment : String
  stage : Int
  assessor_id : Int
  myun_id : Int
  soldier_id : Int
deriving DecidableEq, Repr

def evalRowKey (r : EvalRow) : NatKey := (r.stage, r.assessor_id, r.soldier_id)

/-- The state of the relational store. -/
structure DBState where
  participants : List Participant
  assessor_groups : List AssessorInGroup
  evaluations : List EvalRow
deriving DecidableEq, Repr

/-- Embedding of `db.get_participant_id`: the participant id for a chest number, when
the match is unique; `None` when not found or not unique. -/
def get_participant_id (db : DBState) (chest : Int) : Option Int :=
  match db.participants.filter (fun p => p.chest_number == chest) with
  | [p] => some p.id
  | _ => Option.none

/-- Embedding of `db.get_assessoringroup`: the (myun_id, assessor_id) pair for a
(group_id, stage, role) triple, when the match is unique. -/
def get_assessoringroup (db : DBState) (group_id stage : Int)
    (role : AssessorRole) : Option (Int × Int) :=
  match db.assessor_groups.filter
      (fun g => g.group_id == group_id && g.stage == stage && g.role == role) with
  | [g] => some (g.myun_id, g.assessor_id)
  | _ => Option.none

/-- Embedding of `db.find_existing_evaluation_keys`: the keys of persisted
evaluations that match one of the given keys and have a participant row
for their soldier (the SQL joins `api_participant` on
`p.id = e.soldier_id`). -/
def find_existing_evaluation_keys (db : DBState)
    (keys : List DuplicationValidation) : List DuplicationValidation :=
  (db.evaluations.filter (fun e =>
      keys.any (fun k => dvKey k == evalRowKey e) &&
      db.participants.any (fun p => p.id == e.soldier_id))).map
    (fun e =>
      { stage := e.stage
        soldier_id := e.soldier_id
        assessor_id := e.assessor_id
        group_id := Option.none
        chest_number := Option.none
        candidate_name := Option.none
        assessor_name := Option.none
        grade := Option.none
        comment := Option.none
        row_number := Option.none
        half_index := Option.none })

/-- Embedding of `validators.find_duplicate_keys_in_db` (Duplicate Detector Phase 2):
flag every candidate whose natural key already exists in the store. -/
def find_duplicate_keys_in_db (db : DBState)
    (inserts : List EvaluationInsert) : List DuplicationValidation :=
  let inserts_keys := inserts.map _insert_keys
  if inserts_keys = [] then []
  else
    let existing := find_existing_evaluation_keys db inserts_keys
    let existing_key_set := existing.map dvKey
    (inserts.filter (fun ev => existing_key_set.contains (evKey ev))).map
      _insert_keys

/-! ## Reference Resolver (`main._resolve_evaluation_ids`) -/

/-- Role selection from the Excel half index: half 1 is the group
commander, any other half the group responsible. -/
def roleFor (half_index : Int) : AssessorRole :=
  if half_index = 1 then .group_commander else .group_responsible

/-- Embedding of `main._resolve_evaluation_ids`: both lookups are attempted
unconditionally; if any error was collected the result is `none`
together with the errors, otherwise the resolved triple
(soldier_id, myun_id, assessor_id) with no errors. -/
def _resolve_evaluation_ids (db : DBState) (half : HalfInput)
    (stage row_number half_index : Int) :
    Option (Int × Int × Int) × List ExcelValidationError :=
  let soldier := get_participant_id db half.chest_number
  let errs1 : List ExcelValidationError :=
    match soldier with
    | Option.none =>
        [⟨row_number, half_index, "chest_number",
          "participant not found or not unique"⟩]
    | some _ => []
  let sql_result :=
    get_assessoringroup db half.group_id stage (roleFor half_index)
  let errs2 : List ExcelValidationError :=
    errs1 ++
      (match sql_result with
      | Option.none =>
          [⟨row_number, half_index, "group_id/stage",
            "assessoringroup not found or not unique"⟩]
      | some _ => [])
  -- `if errors: return None, errors` followed by the asserted success
  -- return; the collected list is empty exactly when both lookups hit.
  match soldier, sql_result with
  | some s, some ma => (some (s, ma.1, ma.2), [])
  | _, _ => (Option.none, errs2)

/-! ## Insert Executor (`main._execute_inserts_and_log`) -/

/-- The SQL text built by `main._build_insert_sql`. -/
def _build_insert_sql : String :=
  "INSERT INTO api_assessorevaluation " ++
  "(grade, comment, stage, assessor_id, myun_id, soldier_id) " ++
  "VALUES (%s, %s, %s, %s, %s, %s) " ++
  "ON CONFLICT DO NOTHING RETURNING 1"

def toEvalRow (ev : EvaluationInsert) : EvalRow :=
  ⟨ev.grade, ev.comment, ev.stage, ev.assessor_id, ev.myun_id, ev.soldier_id⟩

def hasEvalKey (db : DBState) (k : NatKey) : Bool :=
  db.evaluations.any (fun r => evalRowKey r == k)

/-- Modelled from the spec: the repository contains no schema for
`api_assessorevaluation`, only the insert statement of
`_build_insert_sql`; the spec's external interface
`insert_or_ignore(record) -> affected_row_count` makes the conditional
insert a no-op exactly when the natural key (stage, assessor_id,
soldier_id) already exists, reporting 1 affected row on insert and 0 on
conflict (`ON CONFLICT DO NOTHING RETURNING 1`). -/
def insert_or_ignore (db : DBState) (row : EvalRow) : DBState × Nat :=
  if hasEvalKey db (evalRowKey row) then (db, 0)
  else ({ db with evaluations := db.evaluations ++ [row] }, 1)

/-- One line of the CSV execution log written by the executor. -/
structure LogRow where
  grade : Int
  comment : String
  stage : Int
  assessor_id : Int
  myun_id : Int
  soldier_id : Int
  status : String
deriving DecidableEq, Repr

def mkLogRow (ev : EvaluationInsert) (status : String) : LogRow :=
  ⟨ev.grade, ev.comment, ev.stage, ev.assessor_id, ev.myun_id, ev.soldier_id,
    status⟩

/-- The loop state of the executor: tallies, store, audit log. -/
structure ExecState where
  inserted_rows : Nat
  skipped_rows : Nat
  db : DBState
  log : List LogRow
deriving DecidableEq, Repr

/-- One iteration of the executor loop: issue the conditional insert,
classify by the affected-row count, append one audit row. -/
def execStep (st : ExecState) (ev : EvaluationInsert) : ExecState :=
  let res := insert_or_ignore st.db (toEvalRow ev)
  if 0 < res.2 then
    ⟨st.inserted_rows + 1, st.skipped_rows, res.1,
      st.log ++ [mkLogRow ev "inserted"]⟩
  else
    ⟨st.inserted_rows, st.skipped_rows + 1, res.1,
      st.log ++ [mkLogRow ev "skipped"]⟩

/-- Embedding of `main._execute_inserts_and_log`. -/
def _execute_inserts_and_log (db : DBState)
    (inserts : List EvaluationInsert) : ExecState :=
  inserts.foldl execStep ⟨0, 0, db, []⟩

/-! ## The run pipeline after candidate collection (`main.main`)

`main` first collects `(inserts, all_errors)` and then, in order:
Phase-1 duplicates (report to file, then a failing `assert` aborts the
run), Phase-2 duplicates (likewise), the validation-error report (a
warning only), SQL construction, insert execution, commit.  The
pipeline below takes the collection result as input and models that
sequencing exactly. -/

/-- How a run ends: aborted by the Phase-1 assert, aborted by the
Phase-2 assert, or completed with the executor tallies. -/
inductive RunOutcome where
  | assertExcelDuplicates (dups : List DuplicationValidation)
  | assertDbDuplicates (dups : List DuplicationValidation)
  | completed (inserted skipped : Nat)
deriving DecidableEq, Repr

/-- Observables of a run: outcome, whether the Phase-2 store query was
issued, the contents of the three report files, the final store state
and the execution log. -/
structure RunResult where
  outcome : RunOutcome
  phase2_queried : Bool
  excel_dups_reported : List DuplicationValidation
  db_dups_reported : List DuplicationValidation
  errors_reported : List ExcelValidationError
  db : DBState
  insert_log : List LogRow
deriving DecidableEq, Repr

/-- Embedding of `main.main` from the point where candidates and accumulated errors
are in hand. -/
def mainRun (db : DBState) (inserts : List EvaluationInsert)
    (all_errors : List ExcelValidationError) : RunResult :=
  let dups1 := find_duplicate_keys_in_excel inserts
  if dups1 ≠ [] then
    -- duplications file written, then `assert not duplicate_inserts_in_excel`
    -- raises AssertionError: the run stops here.
    ⟨.assertExcelDuplicates dups1, false, dups1, [], [], db, []⟩
  else
    let dups2 := find_duplicate_keys_in_db db inserts
    if dups2 ≠ [] then
      ⟨.assertDbDuplicates dups2, true, [], dups2, [], db, []⟩
    else
      -- validation errors are written and logged as a warning, then the
      -- run proceeds to execute the inserts and commit.
      let ex := _execute_inserts_and_log db inserts
      ⟨.completed ex.inserted_rows ex.skipped_rows, true, [], [],
        all_errors, ex.db, ex.log⟩

/-! ## Candidate collection (`main._collect_inserts`)

`main.py` imports the twelve-field `models.evaluation_insert.EvaluationInsert`
(no field has a default), but its append constructs it with only the six
insert fields (grade, comment, stage, assessor_id, myun_id, soldier_id).
That call raises `TypeError` in Python, and the exception is not caught
anywhere in `main` (the `try` only wraps the executor), so the first half
that validates and resolves aborts the whole run before any report is
written and before any insert is attempted. -/

/-- Outcome of `main._collect_inserts` over the halves of the workbook:
either the uncaught constructor `TypeError` described above, or normal
completion with the collected candidates and accumulated errors. -/
inductive CollectResult where
  | typeError
  | collected (inserts : List EvaluationInsert)
      (all_errors : List ExcelValidationError)
deriving DecidableEq, Repr

/-- The loop of `main._collect_inserts`: validate each half (on errors,
accumulate and continue), resolve its references (on errors, accumulate
and continue), and otherwise construct the `EvaluationInsert` — which is
the six-keyword call against the twelve-field dataclass and therefore
raises `TypeError`. -/
def collectLoop (db : DBState) (stage : Int) :
    List (Int × Int × RawHalf) → List ExcelValidationError → CollectResult
  | [], all_errors => .collected [] all_errors
  | (row_number, half_index, half_raw) :: rest, all_errors =>
    let v := validate_half half_raw row_number half_index
    match v.1 with
    | Option.none => collectLoop db stage rest (all_errors ++ v.2.1)
    | some half_model =>
      let r := _resolve_evaluation_ids db half_model stage row_number
        half_index
      match r.1 with
      | Option.none => collectLoop db stage rest (all_errors ++ r.2)
      | some _ => .typeError

/-- Embedding of `main._collect_inserts`, taking the non-empty halves
yielded by `iter_excel_halves` as `(row_number, half_index, raw)`
triples. -/
def _collect_inserts (db : DBState) (halves : List (Int × Int × RawHalf))
    (stage : Int) : CollectResult :=
  collectLoop db stage halves []

/-- Outcome of a whole run of `main.main`: aborted by the collection
`TypeError` (nothing reported, store untouched), or the post-collection
pipeline result. -/
inductive FullRunResult where
  | typeError
  | ran (r : RunResult)
deriving DecidableEq, Repr

/-- Embedding of `main.main` end to end: collect, then run the
duplicate checks, error report and executor of `mainRun`. -/
def mainFullRun (db : DBState) (halves : List (Int × Int × RawHalf))
    (stage : Int) : FullRunResult :=
  match _collect_inserts db halves stage with
  | .typeError => .typeError
  | .collected inserts all_errors => .ran (mainRun db inserts all_errors)

/-! ## Sanity checks on concrete inputs -/

/-- An insert candidate used by several concrete checks. -/
def evA : EvaluationInsert :=
  ⟨2, 1, 5, 100, some "dana", some "noa", 8, "ok", 1, 9, 2, 7⟩

/-- A second candidate with the same natural key (1, 9, 7) as `evA` but
a different audit payload. -/
def evB : EvaluationInsert :=
  ⟨3, 2, 6, 101, Option.none, Option.none, 4, "meh", 1, 9, 3, 7⟩

/-- A candidate with a different natural key. -/
def evC : EvaluationInsert :=
  ⟨4, 1, 5, 102, some "gil", Option.none, 6, "fine", 1, 9, 2, 8⟩

def dbEmpty : DBState := ⟨[], [], []⟩

example : find_duplicate_keys_in_excel [evA, evC] = [] := by decide

example :
    find_duplicate_keys_in_excel [evA, evB, evC] =
      [_insert_keys evA, _insert_keys evB] := by decide

example :
    (_execute_inserts_and_log dbEmpty [evA, evC]).inserted_rows = 2 := by decide

/-! ## Claim C8 — Insert Executor idempotence -/

/-- Claim C8: for every candidate list containing one candidate whose
natural key is absent from the store, running the Insert Executor twice
is idempotent: the first run inserts the row (inserted=1, skipped=0),
the second run skips it (inserted=0, skipped=1), and the store state is
identical after either run. -/
theorem insert_executor_idempotent (db : DBState) (ev : EvaluationInsert)
    (h : hasEvalKey db (evKey ev) = false) :
    (_execute_inserts_and_log db [ev]).inserted_rows = 1 ∧
    (_execute_inserts_and_log db [ev]).skipped_rows = 0 ∧
    (_execute_inserts_and_log db [ev]).db.evaluations
      = db.evaluations ++ [toEvalRow ev] ∧
    (_execute_inserts_and_log
        (_execute_inserts_and_log db [ev]).db [ev]).inserted_rows = 0 ∧
    (_execute_inserts_and_log
        (_execute_inserts_and_log db [ev]).db [ev]).skipped_rows = 1 ∧
    (_execute_inserts_and_log (_execute_inserts_and_log db [ev]).db [ev]).db
      = (_execute_inserts_and_log db [ev]).db := by
  have hkey : evalRowKey (toEvalRow ev) = evKey ev := rfl
  have h2 :
      hasEvalKey { db with evaluations := db.evaluations ++ [toEvalRow ev] }
        (evKey ev) = true := by
    simp [hasEvalKey, List.any_append, hkey]
  simp [_execute_inserts_and_log, execStep, insert_or_ignore, hkey, h, h2]

/-- Witness for C8 at a concrete store and candidate. -/
theorem insert_executor_idempotent_witness :
    hasEvalKey dbEmpty (evKey evA) = false ∧
    (_execute_inserts_and_log dbEmpty [evA]).inserted_rows = 1 ∧
    (_execute_inserts_and_log
        (_execute_inserts_and_log dbEmpty [evA]).db [evA]).skipped_rows = 1 :=
  ⟨by decide,
    (insert_executor_idempotent dbEmpty evA (by decide)).1,
    (insert_executor_idempotent dbEmpty evA (by decide)).2.2.2.2.1⟩

/-! ## Claim C9 — executor classification and audit-log invariants -/

/-- The six data fields of a log row, for comparison with its source
candidate. -/
def logSource (r : LogRow) : Int × String × Int × Int × Int × Int :=
  (r.grade, r.comment, r.stage, r.assessor_id, r.myun_id, r.soldier_id)

/-- The six fields a candidate contributes to its log row. -/
def insertSource (ev : EvaluationInsert) : Int × String × Int × Int × Int × Int :=
  (ev.grade, ev.comment, ev.stage, ev.assessor_id, ev.myun_id, ev.soldier_id)

lemma execStep_counts (st : ExecState) (ev : EvaluationInsert) :
    (execStep st ev).inserted_rows + (execStep st ev).skipped_rows
      = st.inserted_rows + st.skipped_rows + 1 := by
  unfold execStep
  dsimp only
  split <;> (dsimp only; omega)

lemma execStep_log (st : ExecState) (ev : EvaluationInsert) :
    ∃ s, (s = "inserted" ∨ s = "skipped") ∧
      (execStep st ev).log = st.log ++ [mkLogRow ev s] := by
  unfold execStep
  dsimp only
  split
  · exact ⟨"inserted", Or.inl rfl, rfl⟩
  · exact ⟨"skipped", Or.inr rfl, rfl⟩

lemma exec_foldl_inv (l : List EvaluationInsert) (st : ExecState) :
    (l.foldl execStep st).inserted_rows + (l.foldl execStep st).skipped_rows
      = st.inserted_rows + st.skipped_rows + l.length ∧
    (l.foldl execStep st).log.map logSource
      = st.log.map logSource ++ l.map insertSource ∧
    ∀ row ∈ (l.foldl execStep st).log,
      row ∈ st.log ∨ row.status = "inserted" ∨ row.status = "skipped" := by
  induction l generalizing st with
  | nil => exact ⟨by simp, by simp, fun row h => Or.inl h⟩
  | cons ev rest ih =>
    obtain ⟨h1, h2, h3⟩ := ih (execStep st ev)
    obtain ⟨s, hs, hlog⟩ := execStep_log st ev
    refine ⟨?_, ?_, ?_⟩
    · rw [List.foldl_cons, h1, execStep_counts]
      simp; omega
    · rw [List.foldl_cons, h2, hlog]
      have : logSource (mkLogRow ev s) = insertSource ev := rfl
      simp [this]
    · intro row hrow
      rcases h3 row (by simpa using hrow) with hmem | hst
      · rw [hlog] at hmem
        rcases List.mem_append.mp hmem with h | h
        · exact Or.inl h
        · simp at h
          subst h
          rcases hs with hs | hs <;> subst hs
          · exact Or.inr (Or.inl rfl)
          · exact Or.inr (Or.inr rfl)
      · exact Or.inr hst

/-- Claim C9: the executor classifies each candidate as exactly one of
inserted or skipped (so the tallies sum to the number of candidates) and
writes exactly one audit-log row per candidate, in input order. -/
theorem insert_executor_log_invariant (db : DBState)
    (inserts : List EvaluationInsert) :
    (_execute_inserts_and_log db inserts).inserted_rows
        + (_execute_inserts_and_log db inserts).skipped_rows
      = inserts.length ∧
    (_execute_inserts_and_log db inserts).log.map logSource
      = inserts.map insertSource ∧
    ∀ row ∈ (_execute_inserts_and_log db inserts).log,
      row.status = "inserted" ∨ row.status = "skipped" := by
  obtain ⟨h1, h2, h3⟩ := exec_foldl_inv inserts ⟨0, 0, db, []⟩
  refine ⟨by simpa using h1, by simpa using h2, ?_⟩
  intro row hrow
  rcases h3 row hrow with h | h
  · simp at h
  · exact h

/-! ## Claim C4 — Phase-1 duplicates abort the run -/

/-- Claim C4: whenever Phase-1 (intra-batch) duplicate detection finds a
duplicate, the run halts at the failing assert: the Phase-2 store query
is never issued, the store is untouched and no insert is logged. -/
theorem main_halts_on_excel_duplicates (db : DBState)
    (inserts : List EvaluationInsert) (errors : List ExcelValidationError)
    (h : find_duplicate_keys_in_excel inserts ≠ []) :
    (mainRun db inserts errors).outcome
      = .assertExcelDuplicates (find_duplicate_keys_in_excel inserts) ∧
    (mainRun db inserts errors).phase2_queried = false ∧
    (mainRun db inserts errors).db = db ∧
    (mainRun db inserts errors).insert_log = [] := by
  simp [mainRun, h]

/-- Witness for C4: a batch with two candidates sharing the natural key
(1, 9, 7). -/
theorem main_halts_on_excel_duplicates_witness :
    find_duplicate_keys_in_excel [evA, evB] ≠ [] ∧
    (mainRun dbEmpty [evA, evB] []).phase2_queried = false ∧
    (mainRun dbEmpty [evA, evB] []).db = dbEmpty :=
  ⟨by decide,
    (main_halts_on_excel_duplicates dbEmpty [evA, evB] [] (by decide)).2.1,
    (main_halts_on_excel_duplicates dbEmpty [evA, evB] [] (by decide)).2.2.1⟩

/-! ## Claim C7 — Reference Resolver error accumulation -/

/-- The participant-lookup error for a given row and half. -/
def participantError (row_number half_index : Int) : ExcelValidationError :=
  ⟨row_number, half_index, "chest_number", "participant not found or not unique"⟩

/-- The group-role-lookup error for a given row and half. -/
def groupError (row_number half_index : Int) : ExcelValidationError :=
  ⟨row_number, half_index, "group_id/stage",
    "assessoringroup not found or not unique"⟩

/-- Claim C7: the resolver attempts both lookups even when the first
fails (each error kind appears exactly when its lookup fails, so both
can appear for one half), produces no candidate whenever either lookup
fails, and returns the full resolved triple exactly when both succeed. -/
theorem resolver_accumulates_and_resolves (db : DBState) (half : HalfInput)
    (stage row_number half_index : Int) :
    (participantError row_number half_index
        ∈ (_resolve_evaluation_ids db half stage row_number half_index).2
      ↔ get_participant_id db half.chest_number = Option.none) ∧
    (groupError row_number half_index
        ∈ (_resolve_evaluation_ids db half stage row_number half_index).2
      ↔ get_assessoringroup db half.group_id stage (roleFor half_index)
          = Option.none) ∧
    ((_resolve_evaluation_ids db half stage row_number half_index).1
        = Option.none
      ↔ (_resolve_evaluation_ids db half stage row_number half_index).2 ≠ []) ∧
    (∀ s m a,
      (_resolve_evaluation_ids db half stage row_number half_index).1
          = some (s, m, a) →
        get_participant_id db half.chest_number = some s ∧
        get_assessoringroup db half.group_id stage (roleFor half_index)
          = some (m, a)) := by
  unfold _resolve_evaluation_ids
  rcases hp : get_participant_id db half.chest_number with _ | s <;>
    rcases hg : get_assessoringroup db half.group_id stage (roleFor half_index)
      with _ | ⟨m, a⟩ <;>
    simp [participantError, groupError]

/-- Witness for C7: a store resolving chest number 100 to soldier 7 and
(group 5, stage 1, commander) to (myun 2, assessor 9). -/
def dbResolving : DBState :=
  ⟨[⟨7, 100⟩], [⟨5, 1, .group_commander, 2, 9⟩], []⟩

/-- The validated half used in the C7 witness. -/
def halfW : HalfInput := ⟨5, 100, some "dana", some "noa", 8, "ok"⟩

theorem resolver_accumulates_and_resolves_witness :
    get_participant_id dbResolving 100 = some 7 ∧
    get_assessoringroup dbResolving 5 1 (roleFor 1) = some (2, 9) :=
  (resolver_accumulates_and_resolves dbResolving halfW 1 2 1).2.2.2 7 2 9
    (by decide)

/-! ## Claim C1 — what happens to a run that accumulates errors -/

lemma collectLoop_no_candidates (db : DBState) (stage : Int) :
    ∀ (halves : List (Int × Int × RawHalf))
      (acc : List ExcelValidationError) (inserts : List EvaluationInsert)
      (errors : List ExcelValidationError),
      collectLoop db stage halves acc = .collected inserts errors →
        inserts = [] := by
  intro halves
  induction halves with
  | nil =>
    intro acc inserts errors h
    injection h with h1 h2
    exact h1.symm
  | cons hd rest ih =>
    rcases hd with ⟨row_number, half_index, half_raw⟩
    intro acc inserts errors h
    unfold collectLoop at h
    dsimp only at h
    rcases hv : (validate_half half_raw row_number half_index).1
        with _ | half_model
    · rw [hv] at h
      exact ih _ _ _ h
    · rw [hv] at h
      dsimp only at h
      rcases hr : (_resolve_evaluation_ids db half_model stage row_number
          half_index).1 with _ | ids
      · rw [hr] at h
        exact ih _ _ _ h
      · rw [hr] at h
        simp at h

lemma mainRun_nil (db : DBState) (errors : List ExcelValidationError) :
    mainRun db [] errors
      = ⟨.completed 0 0, true, [], [], errors, db, []⟩ := rfl

/-- A half that fails validation (its required comment is missing),
occupying row 3 of the C1 run. -/
def rawErrHalf : RawHalf := ⟨.int 5, .int 100, .none, .none, .int 8, .none⟩

/-- A half that validates and fully resolves against `dbResolving`,
occupying row 2 of the C1 run. -/
def rawOkHalf : RawHalf := ⟨.int 5, .int 100, .none, .none, .int 8, .str "ok"⟩

/-- Counterexample to claim C1: a run that accumulates a field-validation
error and then reaches a half that validates and resolves does not
"report the errors and perform no inserts" — it aborts with the
constructor `TypeError` (`main.py` passes six keyword arguments to the
twelve-field `EvaluationInsert` dataclass), so the accumulated error is
never reported at all. -/
theorem main_crashes_before_reporting_cex :
    (validate_half rawErrHalf 3 1).2.1 ≠ [] ∧
    mainFullRun dbResolving [(3, 1, rawErrHalf), (2, 1, rawOkHalf)] 1
      = .typeError := by
  decide

/-- Claim C1 as amended: every run either aborts with the uncaught
collection `TypeError` — reporting none of the accumulated errors and
performing no inserts — or completes collection with zero candidates, in
which case it reports exactly the accumulated errors and performs no
inserts (executor tallies 0/0, store unchanged, empty log).  In
particular no run ever inserts anything; the short-circuit the claim
describes exists only in the degenerate empty-candidate form, and a run
holding both errors and a resolvable half crashes unreported. -/
theorem main_run_dichotomy (db : DBState)
    (halves : List (Int × Int × RawHalf)) (stage : Int) :
    (∃ errors, _collect_inserts db halves stage = .collected [] errors ∧
      mainFullRun db halves stage
        = .ran ⟨.completed 0 0, true, [], [], errors, db, []⟩) ∨
    mainFullRun db halves stage = .typeError := by
  rcases hc : _collect_inserts db halves stage with _ | ⟨inserts, errors⟩
  · right
    unfold mainFullRun
    rw [hc]
  · left
    have hnil : inserts = [] :=
      collectLoop_no_candidates db stage halves [] inserts errors hc
    subst hnil
    refine ⟨errors, rfl, ?_⟩
    unfold mainFullRun
    rw [hc]
    dsimp only
    rw [mainRun_nil]

/-! ## Claim C5 — Row Splitter column mapping -/

/-- The all-null half produced for a slice the row cannot fill. -/
def allNoneHalf : RawHalf := ⟨.none, .none, .none, .none, .none, .none⟩

/-- Counterexample to claim C5: a row with three cells.  The claim says
the present cells keep their values and only the missing ones are
padded with null; the code instead replaces the whole half by nulls
whenever the row is shorter than the full slice, discarding the three
present cells. -/
theorem row_splitter_discards_short_rows_cex :
    (_row_to_halves [Value.int 1, Value.int 2, Value.str "a"] 15).1
      = allNoneHalf ∧
    (_row_to_halves [Value.int 1, Value.int 2, Value.str "a"] 15).1.group_id
      ≠ Value.int 1 := by
  decide

lemma getD_take_of_lt (l : List Value) (i n : Nat) (h : i < n) :
    (l.take n).getD i Value.none = l.getD i Value.none := by
  simp [List.getD_eq_getD_get?, List.get?_eq_getElem?,
    List.getElem?_take_of_lt h]

lemma getD_drop_take (l : List Value) (off i : Nat) (h : i < 6) :
    ((l.drop off).take 6).getD i Value.none = l.getD (off + i) Value.none := by
  simp [List.getD_eq_getD_get?, List.get?_eq_getElem?,
    List.getElem?_take_of_lt h, List.getElem?_drop]

/-- Claim C5 as amended: columns 0–5 map in order onto the six named
fields of half 1 and columns offset..offset+5 (offset 15) onto the six
named fields of half 2 — but only when the row is long enough for the
entire slice; a shorter row yields an all-null half, with any present
cells of the partial slice discarded rather than kept. -/
theorem row_splitter_column_mapping (row : List Value) :
    (_row_to_halves row 15).1
      = (if 6 ≤ row.length then
          (⟨row.getD 0 .none, row.getD 1 .none, row.getD 2 .none,
            row.getD 3 .none, row.getD 4 .none, row.getD 5 .none⟩ : RawHalf)
        else allNoneHalf) ∧
    (_row_to_halves row 15).2
      = (if 21 ≤ row.length then
          (⟨row.getD 15 .none, row.getD 16 .none, row.getD 17 .none,
            row.getD 18 .none, row.getD 19 .none, row.getD 20 .none⟩ : RawHalf)
        else allNoneHalf) := by
  constructor
  · show _slice_to_half
        (if 6 ≤ row.length then row.take 6 else List.replicate 6 Value.none)
      = _
    by_cases h : 6 ≤ row.length
    · rw [if_pos h, if_pos h]
      unfold _slice_to_half
      rw [getD_take_of_lt row 0 6 (by omega), getD_take_of_lt row 1 6 (by omega),
        getD_take_of_lt row 2 6 (by omega), getD_take_of_lt row 3 6 (by omega),
        getD_take_of_lt row 4 6 (by omega), getD_take_of_lt row 5 6 (by omega)]
    · rw [if_neg h, if_neg h]
      rfl
  · show _slice_to_half
        (if 15 + 6 ≤ row.length then (row.drop 15).take 6
          else List.replicate 6 Value.none)
      = _
    by_cases h : 21 ≤ row.length
    · rw [if_pos (show 15 + 6 ≤ row.length from h), if_pos h]
      unfold _slice_to_half
      rw [getD_drop_take row 15 0 (by omega), getD_drop_take row 15 1 (by omega),
        getD_drop_take row 15 2 (by omega), getD_drop_take row 15 3 (by omega),
        getD_drop_take row 15 4 (by omega), getD_drop_take row 15 5 (by omega)]
    · rw [if_neg (show ¬ 15 + 6 ≤ row.length from h), if_neg h]
      rfl

/-! ## Field-level lemmas for `validate_half` -/

lemma get_set_same (r : RawHalf) (f : FieldName) (v : Value) :
    (r.set f v).get f = v := by
  cases f <;> rfl

lemma get_set_ne (r : RawHalf) (f g : FieldName) (v : Value) (hne : f ≠ g) :
    (r.set g v).get f = r.get f := by
  cases f <;> cases g <;> first | rfl | exact absurd rfl hne

lemma coerceStep_get_ne (rn h : Int) (st : RawHalf × List ExcelValidationError)
    (f g : FieldName) (hne : f ≠ g) :
    (coerceStep rn h st g).1.get f = st.1.get f := by
  unfold coerceStep
  dsimp only
  split
  · rfl
  · split
    · exact get_set_ne st.1 f g _ hne
    · rfl

lemma coerceStep_get_self (rn h : Int) (st : RawHalf × List ExcelValidationError)
    (f : FieldName) :
    (coerceStep rn h st f).1.get f =
      (if is_empty_value (st.1.get f) then st.1.get f
      else
        match pythonInt (st.1.get f) with
        | some n => Value.int n
        | Option.none => st.1.get f) := by
  unfold coerceStep
  dsimp only
  split
  · rfl
  · split
    · exact get_set_same st.1 f _
    · rfl

lemma coerceStep_errs (rn h : Int) (st : RawHalf × List ExcelValidationError)
    (f : FieldName) :
    (coerceStep rn h st f).2 = st.2 ++
      (if is_empty_value (st.1.get f) then []
      else
        match pythonInt (st.1.get f) with
        | some _ => []
        | Option.none => [⟨rn, h, f.key, "must be an integer"⟩]) := by
  unfold coerceStep
  dsimp only
  split
  · simp
  · split
    · simp
    · rfl

/-- Count of errors for a given field name and message. -/
def countErr (errs : List ExcelValidationError) (fkey msg : String) : Nat :=
  (errs.filter (fun e => e.field == fkey && e.message == msg)).length

lemma countErr_append (a b : List ExcelValidationError) (fkey msg : String) :
    countErr (a ++ b) fkey msg = countErr a fkey msg + countErr b fkey msg := by
  simp [countErr, List.filter_append]

/-- Evaluation of the required-field pass as four independent optional
errors, in source order. -/
lemma requiredErrors_eq (raw : RawHalf) (rn h : Int) :
    requiredErrors raw rn h =
      (if is_empty_value (raw.get .group_id) then
        [⟨rn, h, "group_id", "missing required field"⟩] else []) ++
      (if is_empty_value (raw.get .chest_number) then
        [⟨rn, h, "chest_number", "missing required field"⟩] else []) ++
      (if is_empty_value (raw.get .grade) then
        [⟨rn, h, "grade", "missing required field"⟩] else []) ++
      (if is_empty_value (raw.get .comment) then
        [⟨rn, h, "comment", "missing required field"⟩] else []) := by
  unfold requiredErrors required_fields
  simp only [List.foldl_cons, List.foldl_nil, FieldName.key]
  split_ifs <;> simp

lemma mem_requiredErrors_message (raw : RawHalf) (rn h : Int) :
    ∀ e ∈ requiredErrors raw rn h, e.message = "missing required field" := by
  intro e he
  rw [requiredErrors_eq] at he
  simp only [List.mem_append] at he
  rcases he with ((h1 | h1) | h1) | h1 <;>
    · split at h1 <;> simp_all

lemma countErr_eq_zero_of_message_ne (errs : List ExcelValidationError)
    (fkey msg : String)
    (hmsg : ∀ e ∈ errs, e.message ≠ msg) :
    countErr errs fkey msg = 0 := by
  unfold countErr
  rw [List.length_eq_zero, List.filter_eq_nil_iff]
  intro e he
  simp only [Bool.and_eq_true, beq_iff_eq, not_and]
  intro _
  exact hmsg e he

/-- The coercion pass evaluated: the final mapping is obtained by
rewriting each coercible numeric field, and the error list extends the
incoming one by one "must be an integer" error per non-empty,
non-coercible numeric field, in source order. -/
lemma coercePass_eval (raw : RawHalf) (rn h : Int)
    (errs : List ExcelValidationError) :
    ((coercePass raw rn h errs).1.get .group_id =
        (if is_empty_value (raw.get .group_id) then raw.get .group_id
        else
          match pythonInt (raw.get .group_id) with
          | some n => Value.int n
          | Option.none => raw.get .group_id) ∧
      (coercePass raw rn h errs).1.get .chest_number =
        (if is_empty_value (raw.get .chest_number) then raw.get .chest_number
        else
          match pythonInt (raw.get .chest_number) with
          | some n => Value.int n
          | Option.none => raw.get .chest_number) ∧
      (coercePass raw rn h errs).1.get .grade =
        (if is_empty_value (raw.get .grade) then raw.get .grade
        else
          match pythonInt (raw.get .grade) with
          | some n => Value.int n
          | Option.none => raw.get .grade) ∧
      (coercePass raw rn h errs).1.get .candidate_name =
        raw.get .candidate_name ∧
      (coercePass raw rn h errs).1.get .assessor_name =
        raw.get .assessor_name ∧
      (coercePass raw rn h errs).1.get .comment = raw.get .comment) ∧
    (coercePass raw rn h errs).2 = errs ++
      (if is_empty_value (raw.get .group_id) then []
      else
        match pythonInt (raw.get .group_id) with
        | some _ => []
        | Option.none => [⟨rn, h, "group_id", "must be an integer"⟩]) ++
      (if is_empty_value (raw.get .chest_number) then []
      else
        match pythonInt (raw.get .chest_number) with
        | some _ => []
        | Option.none => [⟨rn, h, "chest_number", "must be an integer"⟩]) ++
      (if is_empty_value (raw.get .grade) then []
      else
        match pythonInt (raw.get .grade) with
        | some _ => []
        | Option.none => [⟨rn, h, "grade", "must be an integer"⟩]) := by
  have hpass : coercePass raw rn h errs =
      coerceStep rn h (coerceStep rn h (coerceStep rn h (raw, errs)
        .group_id) .chest_number) .grade := rfl
  have hg1 : (coerceStep rn h (raw, errs) .group_id).1.get .chest_number
      = raw.get .chest_number :=
    coerceStep_get_ne rn h (raw, errs) _ _ (by decide)
  have hg2 : (coerceStep rn h (raw, errs) .group_id).1.get .grade
      = raw.get .grade :=
    coerceStep_get_ne rn h (raw, errs) _ _ (by decide)
  have hg3 : (coerceStep rn h (coerceStep rn h (raw, errs) .group_id)
        .chest_number).1.get .grade
      = raw.get .grade := by
    rw [coerceStep_get_ne rn h _ _ _ (by decide), hg2]
  refine ⟨⟨?_, ?_, ?_, ?_, ?_, ?_⟩, ?_⟩
  · rw [hpass, coerceStep_get_ne rn h _ _ _ (by decide),
      coerceStep_get_ne rn h _ _ _ (by decide), coerceStep_get_self]
  · rw [hpass, coerceStep_get_ne rn h _ _ _ (by decide),
      coerceStep_get_self, hg1]
  · rw [hpass, coerceStep_get_self, hg3]
  · rw [hpass, coerceStep_get_ne rn h _ _ _ (by decide),
      coerceStep_get_ne rn h _ _ _ (by decide),
      coerceStep_get_ne rn h _ _ _ (by decide)]
  · rw [hpass, coerceStep_get_ne rn h _ _ _ (by decide),
      coerceStep_get_ne rn h _ _ _ (by decide),
      coerceStep_get_ne rn h _ _ _ (by decide)]
  · rw [hpass, coerceStep_get_ne rn h _ _ _ (by decide),
      coerceStep_get_ne rn h _ _ _ (by decide),
      coerceStep_get_ne rn h _ _ _ (by decide)]
  · rw [hpass, coerceStep_errs, coerceStep_errs, coerceStep_errs, hg1, hg3]
    simp only [FieldName.key, List.append_assoc]

lemma validate_half_raw' (raw : RawHalf) (rn h : Int) :
    (validate_half raw rn h).2.2
      = (coercePass raw rn h (requiredErrors raw rn h)).1 := by
  unfold validate_half
  dsimp only
  split
  · split <;> rfl
  · rfl

lemma validate_half_error_path (raw : RawHalf) (rn h : Int)
    (hne : (coercePass raw rn h (requiredErrors raw rn h)).2 ≠ []) :
    (validate_half raw rn h).1 = Option.none ∧
    (validate_half raw rn h).2.1
      = (coercePass raw rn h (requiredErrors raw rn h)).2 := by
  unfold validate_half
  dsimp only
  split
  · next heq => exact absurd heq hne
  · exact ⟨rfl, rfl⟩

lemma validate_half_clean_path (raw : RawHalf) (rn h : Int)
    (he : (coercePass raw rn h (requiredErrors raw rn h)).2 = []) :
    (validate_half raw rn h).2.1 = [] ∨
    (validate_half raw rn h).2.1
      = [⟨rn, h, "__model__", "model construction failed"⟩] := by
  unfold validate_half
  dsimp only
  split
  · split
    · exact Or.inl rfl
    · exact Or.inr rfl
  · next hq => exact absurd he hq

lemma countErr_opt_singleton (c : Prop) [Decidable c] (rn h : Int)
    (key fkey msg msg' : String) :
    countErr (if c then [⟨rn, h, key, msg⟩] else []) fkey msg'
      = if c ∧ key = fkey ∧ msg = msg' then 1 else 0 := by
  by_cases hc : c
  · rw [if_pos hc]
    by_cases hk : key = fkey ∧ msg = msg'
    · rw [if_pos ⟨hc, hk⟩]
      simp [countErr, List.filter_cons, hk.1, hk.2]
    · rw [if_neg (fun hq => hk hq.2)]
      have hfalse : (key == fkey && msg == msg') = false := by
        rcases Decidable.em (key = fkey) with h1 | h1 <;>
          rcases Decidable.em (msg = msg') with h2 | h2 <;>
          simp_all
      simp [countErr, List.filter_cons, hfalse]
  · rw [if_neg hc, if_neg (fun hq => hc hq.1)]
    rfl

lemma countErr_mbi_block (rn h : Int) (key fkey : String) (v : Value)
    (hne : key ≠ fkey) :
    countErr
      (if is_empty_value v then []
      else
        match pythonInt v with
        | some _ => []
        | Option.none => [⟨rn, h, key, "must be an integer"⟩])
      fkey "must be an integer" = 0 := by
  split
  · rfl
  · split
    · rfl
    · rw [show ([⟨rn, h, key, "must be an integer"⟩] :
          List ExcelValidationError)
        = if True then [⟨rn, h, key, "must be an integer"⟩] else [] by simp]
      rw [countErr_opt_singleton]
      simp [hne]

lemma countErr_mbi_block_self (rn h : Int) (key : String) (v : Value)
    (hne : is_empty_value v = false) :
    countErr
      (if is_empty_value v then []
      else
        match pythonInt v with
        | some _ => []
        | Option.none => [⟨rn, h, key, "must be an integer"⟩])
      key "must be an integer" = if (pythonInt v).isSome then 0 else 1 := by
  rw [if_neg (by simp [hne])]
  rcases hv : pythonInt v with _ | n
  · simp [countErr, List.filter]
  · simp [countErr]

lemma countErr_mbi_block_other_msg (rn h : Int) (key fkey : String)
    (v : Value) :
    countErr
      (if is_empty_value v then []
      else
        match pythonInt v with
        | some _ => []
        | Option.none => [⟨rn, h, key, "must be an integer"⟩])
      fkey "missing required field" = 0 := by
  split
  · rfl
  · split
    · rfl
    · rw [show ([⟨rn, h, key, "must be an integer"⟩] :
          List ExcelValidationError)
        = if True then [⟨rn, h, key, "must be an integer"⟩] else [] by simp]
      rw [countErr_opt_singleton]
      simp

lemma countErr_requiredErrors_mbi (raw : RawHalf) (rn h : Int)
    (fkey : String) :
    countErr (requiredErrors raw rn h) fkey "must be an integer" = 0 :=
  countErr_eq_zero_of_message_ne _ _ _
    (fun e he => by rw [mem_requiredErrors_message raw rn h e he]; decide)

/-! ## Claim C3 — numeric coercion -/

/-- Counterexample to claim C3: the string "10.0" has zero fractional
part but is rejected with a "must be an integer" error (Python
`int("10.0")` raises), while the non-integer float 10.5 is silently
truncated to the integer 10 with no error at all. -/
theorem numeric_coercion_cex :
    (validate_half
        ⟨.str "10.0", .int 1, .none, .none, .int 5, .str "ok"⟩ 2 1).2.1
      = [⟨2, 1, "group_id", "must be an integer"⟩] ∧
    (validate_half
        ⟨.str "10.0", .int 1, .none, .none, .int 5, .str "ok"⟩ 2 1).2.2.group_id
      = .str "10.0" ∧
    (validate_half
        ⟨.float ratTenPointFive, .int 1, .none, .none, .int 5, .str "ok"⟩
        2 1).2.1 = [] ∧
    (validate_half
        ⟨.float ratTenPointFive, .int 1, .none, .none, .int 5, .str "ok"⟩
        2 1).1
      = some ⟨10, 1, Option.none, Option.none, 5, "ok"⟩ := by
  decide

/-- Claim C3 as amended: for every non-empty numeric field value the
code applies Python `int()`: an int stays itself, a float is truncated
toward zero whether or not its fractional part is zero, and a string is
accepted only if it spells a plain integer.  When `int()` succeeds the
coerced integer is written back with no error; when it fails exactly one
"must be an integer" error is produced for that field. -/
theorem numeric_coercion_amended (raw : RawHalf) (rn h : Int)
    (f : FieldName) (hf : f ∈ int_fields)
    (hne : is_empty_value (raw.get f) = false) :
    (validate_half raw rn h).2.2.get f
      = (match pythonInt (raw.get f) with
        | some n => Value.int n
        | Option.none => raw.get f) ∧
    countErr (validate_half raw rn h).2.1 f.key "must be an integer"
      = (if (pythonInt (raw.get f)).isSome then 0 else 1) := by
  obtain ⟨⟨e1, e2, e3, -, -, -⟩, herrs⟩ :=
    coercePass_eval raw rn h (requiredErrors raw rn h)
  constructor
  · rw [validate_half_raw']
    fin_cases hf
    · rw [e1, if_neg (by simp [hne])]
    · rw [e2, if_neg (by simp [hne])]
    · rw [e3, if_neg (by simp [hne])]
  · have hcount :
        countErr (coercePass raw rn h (requiredErrors raw rn h)).2 f.key
            "must be an integer"
          = (if (pythonInt (raw.get f)).isSome then 0 else 1) := by
      rw [herrs, countErr_append, countErr_append, countErr_append,
        countErr_requiredErrors_mbi]
      fin_cases hf <;> simp only [FieldName.key]
      · rw [countErr_mbi_block_self rn h _ _ hne,
          countErr_mbi_block rn h _ _ _ (by decide),
          countErr_mbi_block rn h _ _ _ (by decide)]
        omega
      · rw [countErr_mbi_block_self rn h _ _ hne,
          countErr_mbi_block rn h _ _ _ (by decide),
          countErr_mbi_block rn h _ _ _ (by decide)]
        omega
      · rw [countErr_mbi_block_self rn h _ _ hne,
          countErr_mbi_block rn h _ _ _ (by decide),
          countErr_mbi_block rn h _ _ _ (by decide)]
        omega
    by_cases hst : (coercePass raw rn h (requiredErrors raw rn h)).2 = []
    · rw [hst] at hcount
      rcases validate_half_clean_path raw rn h hst with hcl | hcl <;> rw [hcl]
      · exact hcount
      · rw [← hcount]
        exact countErr_eq_zero_of_message_ne _ _ _
          (fun e he => by
            rcases List.mem_singleton.mp he with rfl
            show ("model construction failed" : String) ≠ "must be an integer"
            decide)
    · rw [(validate_half_error_path raw rn h hst).2]
      exact hcount

/-- Witness for the amended C3: a half with the float 10.5 in group_id
is coerced (truncated) to 10 without any error. -/
theorem numeric_coercion_amended_witness :
    (validate_half
        ⟨.float ratTenPointFive, .int 2, .none, .none, .int 5, .str "ok"⟩
        2 1).2.2.get .group_id = Value.int 10 ∧
    countErr
      (validate_half
        ⟨.float ratTenPointFive, .int 2, .none, .none, .int 5, .str "ok"⟩
        2 1).2.1 "group_id" "must be an integer" = 0 :=
  ⟨((numeric_coercion_amended
      ⟨.float ratTenPointFive, .int 2, .none, .none, .int 5, .str "ok"⟩
      2 1 .group_id (by decide) (by decide)).1).trans (by decide),
    ((numeric_coercion_amended
      ⟨.float ratTenPointFive, .int 2, .none, .none, .int 5, .str "ok"⟩
      2 1 .group_id (by decide) (by decide)).2).trans (by decide)⟩

/-! ## Claim C6 — exhaustive missing-required-field errors -/

lemma countErr_requiredErrors (raw : RawHalf) (rn h : Int) :
    ∀ g ∈ required_fields,
      countErr (requiredErrors raw rn h) g.key "missing required field"
        = if is_empty_value (raw.get g) then 1 else 0 := by
  intro g hg
  rw [requiredErrors_eq, countErr_append, countErr_append, countErr_append,
    countErr_opt_singleton, countErr_opt_singleton, countErr_opt_singleton,
    countErr_opt_singleton]
  fin_cases hg <;> simp only [FieldName.key] <;> split_ifs <;> simp_all

/-- Claim C6: a half with missing required fields yields no typed
record, and exactly one "missing required field" error per missing
required field — errors are accumulated exhaustively, not fail-fast. -/
theorem missing_required_field_errors (raw : RawHalf) (rn h : Int)
    (hmiss : ∃ f ∈ required_fields, is_empty_value (raw.get f) = true) :
    (validate_half raw rn h).1 = Option.none ∧
    ∀ f ∈ required_fields,
      countErr (validate_half raw rn h).2.1 f.key "missing required field"
        = if is_empty_value (raw.get f) then 1 else 0 := by
  obtain ⟨-, herrs⟩ := coercePass_eval raw rn h (requiredErrors raw rn h)
  obtain ⟨f, hf, hempty⟩ := hmiss
  have hne1 : requiredErrors raw rn h ≠ [] := by
    intro hnil
    have h1 := countErr_requiredErrors raw rn h f hf
    rw [hnil, if_pos hempty] at h1
    simp [countErr] at h1
  have hne2 : (coercePass raw rn h (requiredErrors raw rn h)).2 ≠ [] := by
    rw [herrs]
    intro hnil
    simp only [List.append_eq_nil] at hnil
    exact hne1 hnil.1.1.1
  obtain ⟨hnone, herrpath⟩ := validate_half_error_path raw rn h hne2
  refine ⟨hnone, ?_⟩
  intro g hg
  rw [herrpath, herrs, countErr_append, countErr_append, countErr_append,
    countErr_requiredErrors raw rn h g hg, countErr_mbi_block_other_msg,
    countErr_mbi_block_other_msg, countErr_mbi_block_other_msg]
  simp

/-- A half missing both group_id and grade, used as the C6 witness. -/
def rawMiss : RawHalf := ⟨.none, .int 1, .none, .none, .none, .str "ok"⟩

theorem missing_required_field_errors_witness :
    (validate_half rawMiss 2 1).1 = Option.none ∧
    countErr (validate_half rawMiss 2 1).2.1 "group_id"
      "missing required field" = 1 ∧
    countErr (validate_half rawMiss 2 1).2.1 "chest_number"
      "missing required field" = 0 :=
  ⟨(missing_required_field_errors rawMiss 2 1
      ⟨.group_id, by decide, by decide⟩).1,
    ((missing_required_field_errors rawMiss 2 1
      ⟨.group_id, by decide, by decide⟩).2 .group_id (by decide)).trans
      (by decide),
    ((missing_required_field_errors rawMiss 2 1
      ⟨.group_id, by decide, by decide⟩).2 .chest_number (by decide)).trans
      (by decide)⟩

/-! ## Claim C10 — in-place mutation of the raw mapping -/

/-- Claim C10: `validate_half` writes every successfully coerced numeric
value back into the caller's mapping (modelled as the returned final
mapping state), even on halves that are ultimately rejected because of
errors in other fields. -/
theorem validate_half_mutates_input (raw : RawHalf) (rn h : Int)
    (f : FieldName) (hf : f ∈ int_fields)
    (hne : is_empty_value (raw.get f) = false) (n : Int)
    (hc : pythonInt (raw.get f) = some n) :
    (validate_half raw rn h).2.2.get f = Value.int n := by
  obtain ⟨⟨e1, e2, e3, -, -, -⟩, -⟩ :=
    coercePass_eval raw rn h (requiredErrors raw rn h)
  rw [validate_half_raw']
  fin_cases hf
  · rw [e1, if_neg (by simp [hne]), hc]
  · rw [e2, if_neg (by simp [hne]), hc]
  · rw [e3, if_neg (by simp [hne]), hc]

/-- A half whose group_id is the float 2.0 but whose required comment is
missing, used as the C10 witness: the half is rejected, yet the coerced
integer has been written into the mapping. -/
def rawMut : RawHalf := ⟨.float 2, .int 1, .none, .none, .int 5, .none⟩

theorem validate_half_mutates_input_witness :
    (validate_half rawMut 3 1).1 = Option.none ∧
    (validate_half rawMut 3 1).2.2.get .group_id = Value.int 2 :=
  ⟨by decide,
    validate_half_mutates_input rawMut 3 1 .group_id (by decide) (by decide)
      2 (by decide)⟩

/-! ## Claim C2 — Phase-1 duplicate detection flags every occurrence -/

/-- The occurrences of natural key `k` in a candidate list, in order. -/
def keyOccs (k : NatKey) (l : List EvaluationInsert) : List EvaluationInsert :=
  l.filter (fun ev => decide (evKey ev = k))

lemma dvKey_insert_keys (ev : EvaluationInsert) :
    dvKey (_insert_keys ev) = evKey ev := rfl

lemma keyOccs_append_single (k : NatKey) (p : List EvaluationInsert)
    (ev : EvaluationInsert) :
    keyOccs k (p ++ [ev])
      = keyOccs k p ++ (if evKey ev = k then [ev] else []) := by
  unfold keyOccs
  rw [List.filter_append]
  congr 1
  split <;> simp_all

lemma assocFind?_append_single {α : Type} (l : List (NatKey × α))
    (k₀ : NatKey) (v : α) (k : NatKey) :
    assocFind? (l ++ [(k₀, v)]) k
      = (match assocFind? l k with
        | some w => some w
        | Option.none => if k₀ = k then some v else Option.none) := by
  induction l with
  | nil => rfl
  | cons e rest ih =>
    rcases e with ⟨k₁, w⟩
    by_cases hk : k₁ = k
    · simp [assocFind?, hk]
    · simp only [List.cons_append, assocFind?, if_neg hk]
      exact ih

lemma assocFind?_eq_none_iff {α : Type} (l : List (NatKey × α)) (k : NatKey) :
    assocFind? l k = Option.none ↔ k ∉ l.map Prod.fst := by
  induction l with
  | nil => simp [assocFind?]
  | cons e rest ih =>
    rcases e with ⟨k₁, w⟩
    by_cases hk : k₁ = k
    · simp [assocFind?, hk]
    · simp [assocFind?, hk, ih, Ne.symm hk]

lemma dmapAdd_find_same (m : List (NatKey × List DuplicationValidation))
    (k : NatKey) (f c : DuplicationValidation) :
    assocFind? (dmapAdd m k f c) k
      = some (((assocFind? m k).getD [f]) ++ [c]) := by
  induction m with
  | nil => simp [dmapAdd, assocFind?]
  | cons e rest ih =>
    rcases e with ⟨k₀, l⟩
    by_cases hk : k₀ = k
    · simp [dmapAdd, assocFind?, hk]
    · simp only [dmapAdd, if_neg hk, assocFind?, if_neg hk]
      exact ih

lemma dmapAdd_find_ne (m : List (NatKey × List DuplicationValidation))
    (k : NatKey) (f c : DuplicationValidation) (k' : NatKey) (hne : k' ≠ k) :
    assocFind? (dmapAdd m k f c) k' = assocFind? m k' := by
  induction m with
  | nil => simp [dmapAdd, assocFind?, Ne.symm hne]
  | cons e rest ih =>
    rcases e with ⟨k₀, l⟩
    by_cases hk : k₀ = k
    · simp [dmapAdd, assocFind?, hk, Ne.symm hne]
    · simp only [dmapAdd, if_neg hk, assocFind?]
      split
      · rfl
      · exact ih

lemma dmapAdd_keys_of_found (m : List (NatKey × List DuplicationValidation))
    (k : NatKey) (f c : DuplicationValidation)
    (h : (assocFind? m k).isSome = true) :
    (dmapAdd m k f c).map Prod.fst = m.map Prod.fst := by
  induction m with
  | nil => simp [assocFind?] at h
  | cons e rest ih =>
    rcases e with ⟨k₀, l⟩
    by_cases hk : k₀ = k
    · simp [dmapAdd, hk]
    · simp only [assocFind?, if_neg hk] at h
      simp only [dmapAdd, if_neg hk, List.map_cons]
      rw [ih h]

lemma dmapAdd_keys_of_new (m : List (NatKey × List DuplicationValidation))
    (k : NatKey) (f c : DuplicationValidation)
    (h : assocFind? m k = Option.none) :
    (dmapAdd m k f c).map Prod.fst = m.map Prod.fst ++ [k] := by
  induction m with
  | nil => simp [dmapAdd]
  | cons e rest ih =>
    rcases e with ⟨k₀, l⟩
    by_cases hk : k₀ = k
    · simp [assocFind?, hk] at h
    · simp only [assocFind?, if_neg hk] at h
      simp only [dmapAdd, if_neg hk, List.map_cons, List.cons_append]
      rw [ih h]

lemma dmapAdd_keyed (m : List (NatKey × List DuplicationValidation))
    (k : NatKey) (f c : DuplicationValidation)
    (hm : ∀ e ∈ m, ∀ d ∈ e.2, dvKey d = e.1)
    (hf : dvKey f = k) (hc : dvKey c = k) :
    ∀ e ∈ dmapAdd m k f c, ∀ d ∈ e.2, dvKey d = e.1 := by
  induction m with
  | nil =>
    intro e he d hd
    simp [dmapAdd] at he
    subst he
    simp at hd
    rcases hd with rfl | rfl
    · exact hf
    · exact hc
  | cons e₀ rest ih =>
    rcases e₀ with ⟨k₀, l⟩
    by_cases hk : k₀ = k
    · intro e he d hd
      simp only [dmapAdd, if_pos hk, List.mem_cons] at he
      rcases he with rfl | he
      · simp only [List.mem_append, List.mem_singleton] at hd
        rcases hd with hd | rfl
        · exact hm (k₀, l) (List.mem_cons_self _ _) d hd
        · rw [hc, hk]
      · exact hm e (List.mem_cons_of_mem _ he) d hd
    · intro e he d hd
      simp only [dmapAdd, if_neg hk, List.mem_cons] at he
      rcases he with rfl | he
      · exact hm (k₀, l) (List.mem_cons_self _ _) d hd
      · exact ih (fun e' he' => hm e' (List.mem_cons_of_mem _ he')) e he d hd

lemma flatten_filter_eq (m : List (NatKey × List DuplicationValidation))
    (k : NatKey)
    (hkeyed : ∀ e ∈ m, ∀ d ∈ e.2, dvKey d = e.1)
    (hnd : (m.map Prod.fst).Nodup) :
    ((m.map Prod.snd).flatten).filter (fun d => decide (dvKey d = k))
      = (assocFind? m k).getD [] := by
  induction m with
  | nil => rfl
  | cons e rest ih =>
    rcases e with ⟨k₀, l⟩
    simp only [List.map_cons, List.flatten_cons, List.filter_append]
    have hl : ∀ d ∈ l, dvKey d = k₀ :=
      fun d hd => hkeyed (k₀, l) (List.mem_cons_self _ _) d hd
    have hrest : ∀ e ∈ rest, ∀ d ∈ e.2, dvKey d = e.1 :=
      fun e he => hkeyed e (List.mem_cons_of_mem _ he)
    simp only [List.map_cons, List.nodup_cons] at hnd
    by_cases hk : k₀ = k
    · subst hk
      have h1 : l.filter (fun d => decide (dvKey d = k₀)) = l :=
        List.filter_eq_self.mpr (fun d hd => by simp [hl d hd])
      have h2 : assocFind? rest k₀ = Option.none :=
        (assocFind?_eq_none_iff rest k₀).mpr hnd.1
      rw [h1, ih hrest hnd.2, h2, assocFind?]
      simp
    · have h1 : l.filter (fun d => decide (dvKey d = k)) = [] :=
        List.filter_eq_nil_iff.mpr
          (fun d hd => by simp [hl d hd, hk])
      rw [h1, ih hrest hnd.2]
      simp only [assocFind?, if_neg hk, List.nil_append]

/-- The loop invariant of `find_duplicate_keys_in_excel` after
processing a prefix `p`: `seen` remembers the first occurrence of every
key of `p`, `duplicates_map` holds exactly the keys of `p` with two or
more occurrences together with every occurrence in order, every stored
record carries its entry's key, and the map's keys are distinct. -/
def DupInv (p : List EvaluationInsert) (st : DupState) : Prop :=
  (∀ k, assocFind? st.seen k = ((keyOccs k p).map _insert_keys).head?)
  ∧ (∀ k, assocFind? st.dmap k =
      if 2 ≤ (keyOccs k p).length then some ((keyOccs k p).map _insert_keys)
      else Option.none)
  ∧ (∀ e ∈ st.dmap, ∀ d ∈ e.2, dvKey d = e.1)
  ∧ (st.dmap.map Prod.fst).Nodup

lemma dupInv_init : DupInv [] ⟨[], []⟩ := by
  refine ⟨fun k => rfl, fun k => by simp [assocFind?, keyOccs], ?_, ?_⟩
  · intro e he
    simp at he
  · simp

lemma dupInv_step (p : List EvaluationInsert) (st : DupState)
    (ev : EvaluationInsert) (h : DupInv p st) :
    DupInv (p ++ [ev]) (dupStep st ev) := by
  obtain ⟨h1, h2, h3, h4⟩ := h
  unfold dupStep
  dsimp only
  rcases hseen : assocFind? st.seen (evKey ev) with _ | firstDup
  · -- first occurrence of this key
    have hocc : keyOccs (evKey ev) p = [] := by
      have hh := (h1 (evKey ev)).symm.trans hseen
      rcases ho : keyOccs (evKey ev) p with _ | ⟨e0, rest⟩
      · rfl
      · rw [ho] at hh
        simp at hh
    refine ⟨?_, ?_, h3, h4⟩
    · intro k
      rw [assocFind?_append_single, h1 k, keyOccs_append_single]
      by_cases hk : evKey ev = k
      · subst hk
        rw [hocc]
        simp
      · simp only [if_neg hk, List.append_nil]
        rcases hx : ((keyOccs k p).map _insert_keys).head? with _ | w <;> rfl
    · intro k
      rw [h2 k, keyOccs_append_single]
      by_cases hk : evKey ev = k
      · subst hk
        rw [hocc]
        simp
      · simp [hk]
  · -- repeated key: all its occurrences move into duplicates_map
    have hhead : ((keyOccs (evKey ev) p).map _insert_keys).head?
        = some firstDup := (h1 (evKey ev)).symm.trans hseen
    obtain ⟨e0, occs0, hocc0⟩ :
        ∃ e0 occs0, keyOccs (evKey ev) p = e0 :: occs0 := by
      rcases ho : keyOccs (evKey ev) p with _ | ⟨a, b⟩
      · rw [ho] at hhead
        simp at hhead
      · exact ⟨a, b, rfl⟩
    have hfirst : _insert_keys e0 = firstDup := by
      rw [hocc0] at hhead
      simpa using hhead
    have he0key : evKey e0 = evKey ev := by
      have hmem : e0 ∈ keyOccs (evKey ev) p := by
        rw [hocc0]
        exact List.mem_cons_self _ _
      have hp := List.of_mem_filter hmem
      exact of_decide_eq_true hp
    refine ⟨?_, ?_, ?_, ?_⟩
    · intro k
      rw [h1 k, keyOccs_append_single]
      by_cases hk : evKey ev = k
      · subst hk
        rw [hocc0]
        simp
      · simp [if_neg hk]
    · intro k
      by_cases hk : evKey ev = k
      · subst hk
        rw [dmapAdd_find_same, h2 (evKey ev), keyOccs_append_single,
          if_pos rfl, hocc0]
        by_cases hlen : 2 ≤ (e0 :: occs0).length
        · have hlen2 : 2 ≤ ((e0 :: occs0) ++ [ev]).length := by
            simp only [List.length_append, List.length_cons]
            omega
          rw [if_pos hlen, if_pos hlen2]
          simp [List.map_append]
        · have hlen1 : occs0 = [] := by
            rcases occs0 with _ | ⟨x, xs⟩
            · rfl
            · exfalso
              apply hlen
              simp only [List.length_cons]
              omega
          subst hlen1
          rw [if_neg hlen, if_pos (by simp)]
          simp [hfirst]
      · rw [dmapAdd_find_ne _ _ _ _ _ (fun hq => hk hq.symm), h2 k,
          keyOccs_append_single]
        simp [if_neg hk]
    · exact dmapAdd_keyed st.dmap (evKey ev) firstDup (_insert_keys ev) h3
        (by rw [← hfirst, dvKey_insert_keys]; exact he0key)
        (dvKey_insert_keys ev)
    · rcases hdm : assocFind? st.dmap (evKey ev) with _ | l
      · rw [dmapAdd_keys_of_new _ _ _ _ hdm]
        have hnot : evKey ev ∉ st.dmap.map Prod.fst :=
          (assocFind?_eq_none_iff _ _).mp hdm
        refine List.nodup_append.mpr ⟨h4, by simp, ?_⟩
        intro a ha hb
        simp only [List.mem_singleton] at hb
        subst hb
        exact hnot ha
      · rw [dmapAdd_keys_of_found _ _ _ _ (by rw [hdm]; rfl)]
        exact h4

lemma dupInv_foldl (l p : List EvaluationInsert) (st : DupState)
    (h : DupInv p st) : DupInv (p ++ l) (l.foldl dupStep st) := by
  induction l generalizing p st with
  | nil => simpa using h
  | cons ev rest ih =>
    rw [List.foldl_cons]
    have h2 := ih (p ++ [ev]) (dupStep st ev) (dupInv_step p st ev h)
    simpa [List.append_assoc] using h2

/-- Claim C2: for every candidate list and natural key, Phase-1
duplicate detection returns precisely every occurrence of the key —
including the first — whenever the key occurs more than once, each
flagged record carrying the full audit context of its occurrence
(`_insert_keys` keeps group_id, chest_number, both names, grade,
comment, row and half); a key occurring at most once is not flagged. -/
theorem phase1_flags_every_occurrence (inserts : List EvaluationInsert)
    (k : NatKey) :
    (find_duplicate_keys_in_excel inserts).filter
        (fun d => decide (dvKey d = k))
      = if 2 ≤ (keyOccs k inserts).length
        then (keyOccs k inserts).map _insert_keys
        else [] := by
  have hinv := dupInv_foldl inserts [] ⟨[], []⟩ dupInv_init
  rw [List.nil_append] at hinv
  obtain ⟨-, h2, h3, h4⟩ := hinv
  unfold find_duplicate_keys_in_excel
  rw [flatten_filter_eq _ k h3 h4, h2 k]
  split <;> rfl

example :
    (find_duplicate_keys_in_excel [evA, evC, evB]).filter
        (fun d => decide (dvKey d = (1, 9, 7)))
      = [_insert_keys evA, _insert_keys evB] := by decide

example :
    (find_duplicate_keys_in_excel [evA, evC, evB]).filter
        (fun d => decide (dvKey d = (1, 9, 8))) = [] := by decide

end GibushimExcel
